import Mathlib

/-!
Verification of the go-load-balancer core (P4ST4S/go-load-balancer).

Shallow embedding of the Go sources:
  * `src/core/backend.go` (plus the later revision carrying the memory-usage
    fields) — the `Backend` record and its operations;
  * `src/core/pool.go` — the `ServerPool`, round-robin selection
    (`NextIndex` / `GetNextPeer`), least-connections selection
    (`GetLeastConnPeer`), uptime aggregation and `GetStats`;
  * `src/cmd/lb/main.go` — `lbHandler`, `isBackendAlive`,
    `updateBackendStats`.

Go `uint64` values are modelled as `Nat` reduced modulo `2 ^ 64` exactly where
the Go code can overflow (the atomic rotation cursor).  Network I/O is
abstracted into explicit "world" records describing the outcome of the one
dial / request the function performs; the functions themselves are translated
from the source line by line.  `time.Now()` becomes an explicit `now : Nat`
argument (seconds).  A Go runtime panic (integer division by zero) is made
explicit through `Except GoPanic`.
-/

namespace LoadBalancer

deriving instance DecidableEq for Except

/-- Modulus of Go's `uint64` arithmetic. -/
def UINT64_MOD : Nat := 2 ^ 64

/-- Go runtime panics that the embedded code can raise. -/
inductive GoPanic where
  | divideByZero
  deriving DecidableEq, Repr

/-- The `Backend` struct of `src/core/backend.go` (revision with the
`MemoryUsage` field, `src/unnamed/part_001`).  `URL` is the backend address
(`url.URL` abstracted to its string form), `StartTime` an absolute instant in
seconds.  `ConnCount` is the connection counter `uint64`; its accessor and the
CAS increment/decrement are modelled from the spec below because that revision
of `backend.go` is absent from the sources (only its tests and callers are). -/
structure Backend where
  URL : String
  Alive : Bool
  StartTime : Nat
  MemoryUsage : Nat
  ConnCount : Nat
  deriving DecidableEq, Repr

/-- `IsAlive` — reads the alive flag (the `RWMutex` is irrelevant in the
sequential embedding). -/
def Backend.IsAlive (b : Backend) : Bool := b.Alive

/-- `SetAlive` from `src/core/backend.go`: if transitioning to alive from a
dead state, reset `StartTime` to the current time; then store the flag. -/
def Backend.SetAlive (b : Backend) (now : Nat) (alive : Bool) : Backend :=
  if alive && !b.Alive then { b with StartTime := now, Alive := alive }
  else { b with Alive := alive }

/-- `SetMemoryUsage` from `src/core/backend.go` (memory revision). -/
def Backend.SetMemoryUsage (b : Backend) (mem : Nat) : Backend :=
  { b with MemoryUsage := mem }

/-- `GetMemoryUsage` from `src/core/backend.go` (memory revision). -/
def Backend.GetMemoryUsage (b : Backend) : Nat := b.MemoryUsage

/-- Modelled from the spec: `connCount()` — atomic read of the connection
counter (the `backend.go` revision holding the counter is missing from the
sources; only `pool.go` and the tests call it). -/
def Backend.GetConnCount (b : Backend) : Nat := b.ConnCount

/-- Modelled from the spec: `incConn()` — lock-free atomic increment of the
`uint64` counter (missing from the sources; wraps modulo `2 ^ 64` as
`atomic.AddUint64` does). -/
def Backend.IncConn (b : Backend) : Backend :=
  { b with ConnCount := (b.ConnCount + 1) % UINT64_MOD }

/-- Modelled from the spec: `decConn()` — guarded decrement clamping at zero.
The spec's compare-and-swap retry loop (read current value, if zero return,
else attempt swap to value − 1, retry on contention) has this sequential
semantics. -/
def Backend.DecConn (b : Backend) : Backend :=
  if b.ConnCount = 0 then b else { b with ConnCount := b.ConnCount - 1 }

/-- The `ServerPool` struct of `src/core/pool.go`: ordered backends plus the
atomic rotation cursor `current` (a `uint64`, kept below `2 ^ 64` by every
update). -/
structure ServerPool where
  Backends : List Backend
  current : Nat
  deriving DecidableEq, Repr

/-- Aliveness of the backend stored at index `i` (out-of-range reads as dead;
the Go code never reads out of range). -/
def aliveAt (bs : List Backend) (i : Nat) : Bool :=
  match bs.get? i with
  | some b => b.IsAlive
  | none => false

/-- `NextIndex` from `src/core/pool.go`:
`int(atomic.AddUint64(&s.current, 1) % uint64(len(s.Backends)))`.
The atomic add happens first (wrapping modulo `2 ^ 64`); the subsequent `%` by
the pool length is a Go runtime panic (integer divide by zero) when the pool
is empty, which the embedding surfaces as an explicit `GoPanic`. -/
def ServerPool.NextIndex (s : ServerPool) : Except GoPanic Nat × ServerPool :=
  let cur := (s.current + 1) % UINT64_MOD
  let s1 := { s with current := cur }
  if s1.Backends.length = 0 then (.error .divideByZero, s1)
  else (.ok (cur % s1.Backends.length), s1)

/-- The scan loop inside `GetNextPeer`: `for i := next; i < l; i++` with
`idx := i % len(s.Backends)`, returning the first `i` whose backend is alive,
after at most `k` iterations. -/
def scanAlive (bs : List Backend) : Nat → Nat → Option Nat
  | _, 0 => none
  | i, k + 1 =>
    if aliveAt bs (i % bs.length) then some i else scanAlive bs (i + 1) k

/-- `GetNextPeer` from `src/core/pool.go`: take the next index, scan forward
through at most `len(s.Backends)` positions (wrapping) for an alive backend;
when found at an `i` other than the starting index, store that backend's index
into the shared cursor (`atomic.StoreUint64`).  Returns the index of the
chosen backend (the Go code returns the `*Backend` pointer at that index). -/
def ServerPool.GetNextPeer (s : ServerPool) : Except GoPanic (Option Nat) × ServerPool :=
  match s.NextIndex with
  | (.error e, s1) => (.error e, s1)
  | (.ok next, s1) =>
    match scanAlive s1.Backends next s1.Backends.length with
    | some i =>
      let idx := i % s1.Backends.length
      (.ok (some idx), if i = next then s1 else { s1 with current := idx })
    | none => (.ok none, s1)

/-- The starting index of the scan in `GetNextPeer`: the incremented cursor
reduced modulo the pool length. -/
def startIdx (s : ServerPool) : Nat :=
  ((s.current + 1) % UINT64_MOD) % s.Backends.length

/-- The loop of `GetLeastConnPeer` from `src/core/pool.go`:
`for _, b := range s.Backends { if !b.IsAlive() { continue }; c := b.GetConnCount();
if best == nil || c < min { best = b; min = c } }`.
`k` is the position of the head of `bs` in the original pool; `best` carries
the position of the chosen backend alongside it, standing in for the Go
pointer's identity. -/
def leastConnLoop (k : Nat) (bs : List Backend) (best : Option (Nat × Backend))
    (min : Nat) : Option (Nat × Backend) :=
  match bs with
  | [] => best
  | b :: rest =>
    if !b.IsAlive then leastConnLoop (k + 1) rest best min
    else if best.isNone || b.GetConnCount < min then
      leastConnLoop (k + 1) rest (some (k, b)) b.GetConnCount
    else leastConnLoop (k + 1) rest best min

/-- `GetLeastConnPeer` from `src/core/pool.go`: `best` starts `nil`, `min`
starts at `^uint64(0)` (the maximal `uint64`). -/
def ServerPool.GetLeastConnPeer (s : ServerPool) : Option (Nat × Backend) :=
  leastConnLoop 0 s.Backends none (UINT64_MOD - 1)

/-- `AddBackend` from `src/core/pool.go`. -/
def ServerPool.AddBackend (s : ServerPool) (b : Backend) : ServerPool :=
  { s with Backends := s.Backends ++ [b] }

/-- Zero-padded two-digit rendering used by `%02d` in `fmt.Sprintf` (numbers
of three or more digits print in full). -/
def pad2 (n : Nat) : String :=
  if n < 10 then "0" ++ toString n else toString n

/-- `formatSecondsToDuration` from `src/core/pool.go`:
`fmt.Sprintf("%02dh:%02dm:%02ds", hours, minutes, secs)`. -/
def formatSecondsToDuration (seconds : Nat) : String :=
  pad2 (seconds / 3600) ++ "h:" ++ pad2 ((seconds % 3600) / 60) ++ "m:"
    ++ pad2 (seconds % 60) ++ "s"

/-- `GetUpTimeInSeconds` from `src/core/backend.go`: 0 when dead, else
`time.Since(b.StartTime)` in whole seconds.  `now` is the current instant; the
Go float truncation is Nat subtraction (clamped at 0 should the clock read
before `StartTime`, an edge the code leaves to the platform). -/
def Backend.GetUpTimeInSeconds (b : Backend) (now : Nat) : Nat :=
  if !b.Alive then 0 else now - b.StartTime

/-- `GetUpTime` from `src/core/backend.go`. -/
def Backend.GetUpTime (b : Backend) (now : Nat) : String :=
  formatSecondsToDuration (b.GetUpTimeInSeconds now)

/-- Round `num / den` to the nearest integer, ties to even — the rounding
`fmt`'s `%.2f` applies (exact for the byte ranges the tests exercise; the
float64 quotient is taken as exact here). -/
def roundHalfEven (num den : Nat) : Nat :=
  let q := num / den
  let r := num % den
  if 2 * r < den then q
  else if den < 2 * r then q + 1
  else if q % 2 = 0 then q else q + 1

/-- Two-decimal rendering of `num / den`, as `%.2f` prints it. -/
def twoDecimals (num den : Nat) : String :=
  let h := roundHalfEven (num * 100) den
  toString (h / 100) ++ "." ++ pad2 (h % 100)

/-- `GetMemoryUsageString` from `src/core/backend.go` (memory revision):
`"<n> B"` below 1024, `"<n.nn> KB"` below 1 MiB, else `"<n.nn> MB"`. -/
def Backend.GetMemoryUsageString (b : Backend) : String :=
  let mem := b.GetMemoryUsage
  if mem < 1024 then toString mem ++ " B"
  else if mem < 1024 * 1024 then twoDecimals mem 1024 ++ " KB"
  else twoDecimals mem (1024 * 1024) ++ " MB"

/-- The `BackendStats` struct (`src/unnamed/part_001`, lines 83–89): url,
alive, uptime, memory_usage — and no other field. -/
structure BackendStats where
  URL : String
  Alive : Bool
  UpTime : String
  MemoryUsage : String
  deriving DecidableEq, Repr

/-- `GetStats` from `src/core/pool.go`: one `BackendStats` per backend, in
pool order, filled from `b.URL.String()`, `b.IsAlive()`, `b.GetUpTime()`,
`b.GetMemoryUsageString()`. -/
def ServerPool.GetStats (s : ServerPool) (now : Nat) : List BackendStats :=
  s.Backends.map (fun b =>
    { URL := b.URL
      Alive := b.IsAlive
      UpTime := b.GetUpTime now
      MemoryUsage := b.GetMemoryUsageString })

/-- Outcome of one run of the liveness probe `isBackendAlive` in
`src/cmd/lb/main.go`, abstracting the network: `dialError` is the result of
`net.DialTimeout("tcp", u.Host, 2 * time.Second)` (`none` = connection
established); `getStatus` records what an HTTP GET to the backend's base
address would return (`none` = transport failure, `some code` = status code).
The code only performs the dial; `getStatus` is carried so that the spec's
probe semantics can be compared on the same world. -/
structure ProbeWorld where
  dialError : Option String
  getStatus : Option Nat
  deriving DecidableEq, Repr

/-- `isBackendAlive` from `src/cmd/lb/main.go`: dial error → log and report
dead; otherwise close the connection and report alive.  No HTTP request is
issued and no status code is read. -/
def isBackendAlive (w : ProbeWorld) : Bool :=
  match w.dialError with
  | some _ => false
  | none => true

/-- The probe semantics the claim states (an HTTP GET to the base address,
alive iff the status code lies in [200,400), transport failure dead) — written
from the spec's words, for comparison with `isBackendAlive`. -/
def probeAliveClaim (w : ProbeWorld) : Bool :=
  match w.getStatus with
  | some code => decide (200 ≤ code ∧ code < 400)
  | none => false

/-- Outcome of the single `http.Get(b.URL.String() + "/health")` performed by
`updateBackendStats`, abstracting the network: transport error, or a response
with its status code and the result of decoding the JSON body into
`HealthResponse` (`none` = decode failure, `some mem` = the decoded
`memory_usage` field). -/
inductive FetchResult where
  | transportError (msg : String)
  | response (status : Nat) (decodedMemory : Option Nat)
  deriving DecidableEq, Repr

/-- `updateBackendStats` from `src/cmd/lb/main.go`: on transport error return;
on `resp.StatusCode != http.StatusOK` (i.e. ≠ 200) return; on JSON decode
error return; otherwise `b.SetMemoryUsage(health.MemoryUsage)`. -/
def updateBackendStats (b : Backend) (r : FetchResult) : Backend :=
  match r with
  | .transportError _ => b
  | .response status decoded =>
    if status ≠ 200 then b
    else
      match decoded with
      | none => b
      | some mem => b.SetMemoryUsage mem

/-- The observable outcome of `lbHandler` for one request. -/
inductive LbOutcome where
  | notFound404
  | proxied (idx : Nat)
  | unavailable503
  | panicked (e : GoPanic)
  deriving DecidableEq, Repr

/-- `lbHandler` from `src/cmd/lb/main.go`: `/favicon.ico` → 404 `"No favicon"`;
otherwise `GetNextPeer`; a peer → proxy to it; `nil` → 503
`"Service not available"`.  A Go panic inside `GetNextPeer` escapes the
handler (the request gets no response). -/
def lbHandler (path : String) (s : ServerPool) : LbOutcome × ServerPool :=
  if path = "/favicon.ico" then (.notFound404, s)
  else
    match s.GetNextPeer with
    | (.ok (some idx), s1) => (.proxied idx, s1)
    | (.ok none, s1) => (.unavailable503, s1)
    | (.error e, s1) => (.panicked e, s1)

/-- One connection-counter operation. -/
inductive ConnOp where
  | inc
  | dec
  deriving DecidableEq, Repr

/-- Apply a sequence of `incConn` / `decConn` operations. -/
def applyConnOps (b : Backend) (ops : List ConnOp) : Backend :=
  match ops with
  | [] => b
  | .inc :: rest => applyConnOps b.IncConn rest
  | .dec :: rest => applyConnOps b.DecConn rest

/-- Number of increments in a sequence of counter operations. -/
def countIncs (ops : List ConnOp) : Nat :=
  match ops with
  | [] => 0
  | .inc :: rest => countIncs rest + 1
  | .dec :: rest => countIncs rest

/-! ### Helper lemmas about `aliveAt` and the scan loop -/

lemma aliveAt_false_of_any_false (bs : List Backend)
    (h : bs.any (·.Alive) = false) (i : Nat) : aliveAt bs i = false := by
  unfold aliveAt
  cases hg : bs.get? i with
  | none => rfl
  | some b =>
    have hmem : b ∈ bs := List.get?_mem hg
    cases hb : b.Alive with
    | false => simpa [Backend.IsAlive] using hb
    | true =>
      have : bs.any (·.Alive) = true := List.any_eq_true.mpr ⟨b, hmem, hb⟩
      rw [h] at this
      exact absurd this (by simp)

lemma exists_aliveAt_of_any_true (bs : List Backend)
    (h : bs.any (·.Alive) = true) :
    ∃ a, a < bs.length ∧ aliveAt bs a = true := by
  obtain ⟨b, hmem, hb⟩ := List.any_eq_true.mp h
  obtain ⟨n, hlt, hn⟩ := List.mem_iff_getElem.mp hmem
  refine ⟨n, hlt, ?_⟩
  unfold aliveAt
  rw [List.get?_eq_getElem?, List.getElem?_eq_getElem hlt, hn]
  simpa [Backend.IsAlive] using hb

lemma scanAlive_some_spec (bs : List Backend) :
    ∀ k i j, scanAlive bs i k = some j →
      i ≤ j ∧ j < i + k ∧ aliveAt bs (j % bs.length) = true ∧
      ∀ j2, i ≤ j2 → j2 < j → aliveAt bs (j2 % bs.length) = false := by
  intro k
  induction k with
  | zero => intro i j h; simp [scanAlive] at h
  | succ k ih =>
    intro i j h
    cases ha : aliveAt bs (i % bs.length) with
    | true =>
      rw [scanAlive, if_pos ha] at h
      obtain rfl : i = j := by injection h
      exact ⟨Nat.le_refl _, by omega, ha, fun j2 h1 h2 => absurd h1 (by omega)⟩
    | false =>
      rw [scanAlive, if_neg (by simp [ha])] at h
      obtain ⟨h1, h2, h3, h4⟩ := ih (i + 1) j h
      refine ⟨by omega, by omega, h3, ?_⟩
      intro j2 hj2 hj2'
      rcases Nat.eq_or_lt_of_le hj2 with rfl | hlt
      · exact ha
      · exact h4 j2 hlt hj2'

lemma scanAlive_none_spec (bs : List Backend) :
    ∀ k i, scanAlive bs i k = none →
      ∀ j, i ≤ j → j < i + k → aliveAt bs (j % bs.length) = false := by
  intro k
  induction k with
  | zero => intro i _ j h1 h2; omega
  | succ k ih =>
    intro i h j h1 h2
    cases ha : aliveAt bs (i % bs.length) with
    | true => rw [scanAlive, if_pos ha] at h; exact absurd h (by simp)
    | false =>
      rw [scanAlive, if_neg (by simp [ha])] at h
      rcases Nat.eq_or_lt_of_le h1 with rfl | hlt
      · exact ha
      · exact ih (i + 1) h j hlt (by omega)

lemma exists_window_mod (len a i : Nat) (ha : a < len) :
    ∃ j, i ≤ j ∧ j < i + len ∧ j % len = a := by
  have hlen : 0 < len := lt_of_le_of_lt (Nat.zero_le a) ha
  have hdm := Nat.div_add_mod i len
  by_cases hc : i % len ≤ a
  · refine ⟨len * (i / len) + a, by omega, by omega, ?_⟩
    rw [Nat.mul_add_mod]
    exact Nat.mod_eq_of_lt ha
  · have hml := Nat.mod_lt i hlen
    refine ⟨len * (i / len) + len + a, by omega, by omega, ?_⟩
    have he : len * (i / len) + len + a = len * (i / len + 1) + a := by ring
    rw [he, Nat.mul_add_mod]
    exact Nat.mod_eq_of_lt ha

lemma scanAlive_finds (bs : List Backend) (i : Nat)
    (h : bs.any (·.Alive) = true) :
    ∃ j, scanAlive bs i bs.length = some j := by
  obtain ⟨a, halen, ha⟩ := exists_aliveAt_of_any_true bs h
  cases hs : scanAlive bs i bs.length with
  | some j => exact ⟨j, rfl⟩
  | none =>
    obtain ⟨j, h1, h2, h3⟩ := exists_window_mod bs.length a i halen
    have hdead := scanAlive_none_spec bs bs.length i hs j h1 h2
    rw [h3, ha] at hdead
    exact absurd hdead (by simp)

lemma scanAlive_none_of_any_false (bs : List Backend) (i : Nat)
    (h : bs.any (·.Alive) = false) :
    scanAlive bs i bs.length = none := by
  cases hs : scanAlive bs i bs.length with
  | none => rfl
  | some j =>
    have halive := (scanAlive_some_spec bs bs.length i j hs).2.2.1
    rw [aliveAt_false_of_any_false bs h] at halive
    exact absurd halive (by simp)

lemma getNextPeer_eq (s : ServerPool) (hne : s.Backends.length ≠ 0) :
    s.GetNextPeer =
      match scanAlive s.Backends (startIdx s) s.Backends.length with
      | some i =>
        (.ok (some (i % s.Backends.length)),
          if i = startIdx s then { s with current := (s.current + 1) % UINT64_MOD }
          else { s with current := i % s.Backends.length })
      | none => (.ok none, { s with current := (s.current + 1) % UINT64_MOD }) := by
  unfold ServerPool.GetNextPeer ServerPool.NextIndex startIdx
  simp [hne]

/-! ### Claim C1 -/

/-- Claim C1: for every non-empty pool in which at least one backend is alive,
`GetNextPeer` returns (the index of) a backend whose `IsAlive()` is true —
never `nil`; for every non-empty pool in which no backend is alive,
`GetNextPeer` returns `nil`. -/
theorem getNextPeer_alive_nil_cases (s : ServerPool) (hne : s.Backends ≠ []) :
    (s.Backends.any (·.Alive) = true →
      ∃ idx, s.GetNextPeer.1 = .ok (some idx) ∧ idx < s.Backends.length ∧
        aliveAt s.Backends idx = true) ∧
    (s.Backends.any (·.Alive) = false → s.GetNextPeer.1 = .ok none) := by
  have hlen : s.Backends.length ≠ 0 := by
    simpa [List.length_eq_zero] using hne
  constructor
  · intro hany
    obtain ⟨j, hj⟩ := scanAlive_finds s.Backends (startIdx s) hany
    have halive := (scanAlive_some_spec s.Backends s.Backends.length (startIdx s) j hj).2.2.1
    rw [getNextPeer_eq s hlen, hj]
    exact ⟨j % s.Backends.length, rfl,
      Nat.mod_lt _ (Nat.pos_of_ne_zero hlen), halive⟩
  · intro hany
    rw [getNextPeer_eq s hlen, scanAlive_none_of_any_false s.Backends (startIdx s) hany]

/-- Witness for C1 at two concrete pools: `[dead, alive]` with cursor 0 (an
alive peer is returned) and `[dead]` with cursor 7 (`nil` is returned). -/
theorem getNextPeer_alive_nil_cases_witness :
    (∃ idx,
        (ServerPool.GetNextPeer ⟨[⟨"a", false, 0, 0, 0⟩, ⟨"b", true, 0, 0, 0⟩], 0⟩).1
            = .ok (some idx) ∧
        idx < ([⟨"a", false, 0, 0, 0⟩, ⟨"b", true, 0, 0, 0⟩] : List Backend).length ∧
        aliveAt [⟨"a", false, 0, 0, 0⟩, ⟨"b", true, 0, 0, 0⟩] idx = true) ∧
    (ServerPool.GetNextPeer ⟨[⟨"d", false, 0, 0, 0⟩], 7⟩).1 = .ok none :=
  ⟨(getNextPeer_alive_nil_cases ⟨[⟨"a", false, 0, 0, 0⟩, ⟨"b", true, 0, 0, 0⟩], 0⟩
      (by decide)).1 (by decide),
   (getNextPeer_alive_nil_cases ⟨[⟨"d", false, 0, 0, 0⟩], 7⟩ (by decide)).2 (by decide)⟩

/-! ### Claim C7 -/

/-- Claim C7: round-robin skip-ahead — for every non-empty pool, when the
starting index derived from the incremented cursor holds a dead backend and
some alive backend exists, `GetNextPeer` returns the first alive backend found
scanning forward (wrapping) from the starting index — never the dead one — and
leaves the shared cursor set to the index of the backend actually returned. -/
theorem getNextPeer_skip_ahead (s : ServerPool) (hne : s.Backends ≠ [])
    (hdead : aliveAt s.Backends (startIdx s) = false)
    (hany : s.Backends.any (·.Alive) = true) :
    ∃ t idx, 0 < t ∧ t < s.Backends.length ∧
      idx = (startIdx s + t) % s.Backends.length ∧
      aliveAt s.Backends idx = true ∧
      (∀ t2, t2 < t →
        aliveAt s.Backends ((startIdx s + t2) % s.Backends.length) = false) ∧
      s.GetNextPeer.1 = .ok (some idx) ∧
      s.GetNextPeer.2.current = idx := by
  have hlen : s.Backends.length ≠ 0 := by
    simpa [List.length_eq_zero] using hne
  have hpos : 0 < s.Backends.length := Nat.pos_of_ne_zero hlen
  have hstart : startIdx s < s.Backends.length := Nat.mod_lt _ hpos
  obtain ⟨j, hj⟩ := scanAlive_finds s.Backends (startIdx s) hany
  obtain ⟨h1, h2, h3, h4⟩ :=
    scanAlive_some_spec s.Backends s.Backends.length (startIdx s) j hj
  have hjne : j ≠ startIdx s := by
    intro hcontr
    rw [hcontr, Nat.mod_eq_of_lt hstart, hdead] at h3
    exact absurd h3 (by simp)
  refine ⟨j - startIdx s, j % s.Backends.length, by omega, by omega, ?_, ?_, ?_, ?_, ?_⟩
  · have : startIdx s + (j - startIdx s) = j := by omega
    rw [this]
  · exact h3
  · intro t2 ht2
    have := h4 (startIdx s + t2) (by omega) (by omega)
    exact this
  · rw [getNextPeer_eq s hlen, hj]
  · rw [getNextPeer_eq s hlen, hj]
    simp only [if_neg hjne]

/-- Witness for C7 at the concrete pool `[dead, alive, alive]` with cursor 2:
the starting index is 0 and holds a dead backend. -/
theorem getNextPeer_skip_ahead_witness :
    ∃ t idx, 0 < t ∧
      t < (ServerPool.Backends ⟨[⟨"a", false, 0, 0, 0⟩, ⟨"b", true, 0, 0, 0⟩,
            ⟨"c", true, 0, 0, 0⟩], 2⟩).length ∧
      idx = (startIdx ⟨[⟨"a", false, 0, 0, 0⟩, ⟨"b", true, 0, 0, 0⟩,
            ⟨"c", true, 0, 0, 0⟩], 2⟩ + t) %
          (ServerPool.Backends ⟨[⟨"a", false, 0, 0, 0⟩, ⟨"b", true, 0, 0, 0⟩,
            ⟨"c", true, 0, 0, 0⟩], 2⟩).length ∧
      aliveAt (ServerPool.Backends ⟨[⟨"a", false, 0, 0, 0⟩, ⟨"b", true, 0, 0, 0⟩,
            ⟨"c", true, 0, 0, 0⟩], 2⟩) idx = true ∧
      (∀ t2, t2 < t →
        aliveAt (ServerPool.Backends ⟨[⟨"a", false, 0, 0, 0⟩, ⟨"b", true, 0, 0, 0⟩,
            ⟨"c", true, 0, 0, 0⟩], 2⟩)
          ((startIdx ⟨[⟨"a", false, 0, 0, 0⟩, ⟨"b", true, 0, 0, 0⟩,
            ⟨"c", true, 0, 0, 0⟩], 2⟩ + t2) %
            (ServerPool.Backends ⟨[⟨"a", false, 0, 0, 0⟩, ⟨"b", true, 0, 0, 0⟩,
              ⟨"c", true, 0, 0, 0⟩], 2⟩).length) = false) ∧
      (ServerPool.GetNextPeer ⟨[⟨"a", false, 0, 0, 0⟩, ⟨"b", true, 0, 0, 0⟩,
          ⟨"c", true, 0, 0, 0⟩], 2⟩).1 = .ok (some idx) ∧
      (ServerPool.GetNextPeer ⟨[⟨"a", false, 0, 0, 0⟩, ⟨"b", true, 0, 0, 0⟩,
          ⟨"c", true, 0, 0, 0⟩], 2⟩).2.current = idx :=
  getNextPeer_skip_ahead
    ⟨[⟨"a", false, 0, 0, 0⟩, ⟨"b", true, 0, 0, 0⟩, ⟨"c", true, 0, 0, 0⟩], 2⟩
    (by decide) (by decide) (by decide)

/-! ### Claim C8 -/

/-- Claim C8 counterexample: on the fixed pool `[alive, alive, dead]` starting
from cursor 0, the first `GetNextPeer` call leaves the cursor at 1 and the
second call lowers it to 0 — a strict decrease with no unsigned (`2 ^ 64`)
wraparound involved (the incremented values stay far below `2 ^ 64`). -/
theorem getNextPeer_cursor_decrease_counterexample :
    (ServerPool.GetNextPeer ⟨[⟨"a", true, 0, 0, 0⟩, ⟨"b", true, 0, 0, 0⟩,
        ⟨"c", false, 0, 0, 0⟩], 0⟩).2
      = ⟨[⟨"a", true, 0, 0, 0⟩, ⟨"b", true, 0, 0, 0⟩, ⟨"c", false, 0, 0, 0⟩], 1⟩ ∧
    (ServerPool.GetNextPeer ⟨[⟨"a", true, 0, 0, 0⟩, ⟨"b", true, 0, 0, 0⟩,
        ⟨"c", false, 0, 0, 0⟩], 1⟩).2.current = 0 ∧
    0 < 1 ∧ 1 + 1 < UINT64_MOD := by
  refine ⟨by decide, by decide, by decide, ?_⟩
  decide

/-- Claim C8 (amended): within each `GetNextPeer` call the cursor is first
atomically incremented (modulo `2 ^ 64`); the value the call leaves behind is
either that incremented value or — when the skip-ahead store fires — the index
of the backend actually returned, a value below the pool length which may be
numerically smaller than the cursor's previous value.  Monotonic advance is
therefore guaranteed for the increment step only, not for the stored cursor
across calls. -/
theorem getNextPeer_cursor_update (s : ServerPool) :
    s.GetNextPeer.2.current = (s.current + 1) % UINT64_MOD ∨
    (∃ idx, s.GetNextPeer.1 = .ok (some idx) ∧ s.GetNextPeer.2.current = idx ∧
      idx < s.Backends.length) := by
  by_cases hlen : s.Backends.length = 0
  · left
    unfold ServerPool.GetNextPeer ServerPool.NextIndex
    simp [hlen]
  · rw [getNextPeer_eq s hlen]
    cases hs : scanAlive s.Backends (startIdx s) s.Backends.length with
    | none => left; rfl
    | some j =>
      by_cases hj : j = startIdx s
      · left; simp [hj]
      · right
        exact ⟨j % s.Backends.length, rfl, by simp [hj],
          Nat.mod_lt _ (Nat.pos_of_ne_zero hlen)⟩

/-! ### Claim C5 — least-connections selection -/

lemma aliveAt_get? (L : List Backend) (j : Nat) (b : Backend)
    (h : L.get? j = some b) : aliveAt L j = b.Alive := by
  unfold aliveAt
  rw [h]
  rfl

lemma lt_length_of_get? (L : List Backend) (j : Nat) (b : Backend)
    (h : L.get? j = some b) : j < L.length :=
  (List.get?_eq_some.mp h).1

lemma exists_get?_of_aliveAt (L : List Backend) (j : Nat)
    (h : aliveAt L j = true) : ∃ b, L.get? j = some b ∧ b.Alive = true := by
  unfold aliveAt at h
  cases hg : L.get? j with
  | none => rw [hg] at h; exact absurd h (by simp)
  | some b => rw [hg] at h; exact ⟨b, rfl, h⟩

lemma leastConnLoop_invariant (L : List Backend) :
    ∀ (bs : List Backend) (k : Nat) (best : Option (Nat × Backend)) (min : Nat),
      L.drop k = bs →
      (best = none → ∀ j, j < k → aliveAt L j = false) →
      (∀ i b, best = some (i, b) →
        i < k ∧ L.get? i = some b ∧ b.Alive = true ∧ min = b.ConnCount ∧
        (∀ j b2, j < k → L.get? j = some b2 → b2.Alive = true →
          b.ConnCount ≤ b2.ConnCount) ∧
        (∀ j b2, j < i → L.get? j = some b2 → b2.Alive = true →
          b.ConnCount < b2.ConnCount)) →
      ((leastConnLoop k bs best min = none →
          ∀ j b2, L.get? j = some b2 → b2.Alive = false) ∧
       (∀ i b, leastConnLoop k bs best min = some (i, b) →
          L.get? i = some b ∧ b.Alive = true ∧
          (∀ j b2, L.get? j = some b2 → b2.Alive = true →
            b.ConnCount ≤ b2.ConnCount) ∧
          (∀ j b2, j < i → L.get? j = some b2 → b2.Alive = true →
            b.ConnCount < b2.ConnCount))) := by
  intro bs
  induction bs with
  | nil =>
    intro k best min hdrop hnone hsome
    have hlen : L.length ≤ k := List.drop_eq_nil_iff_le.mp hdrop
    constructor
    · intro hres j b2 hj
      have hjk : j < k := lt_of_lt_of_le (lt_length_of_get? L j b2 hj) hlen
      rw [leastConnLoop] at hres
      have hdead := hnone hres j hjk
      rw [aliveAt_get? L j b2 hj] at hdead
      exact hdead
    · intro i b hres
      rw [leastConnLoop] at hres
      obtain ⟨_, hget, halive, _, hle, hlt⟩ := hsome i b hres
      refine ⟨hget, halive, ?_, hlt⟩
      intro j b2 hj hb2
      exact hle j b2 (lt_of_lt_of_le (lt_length_of_get? L j b2 hj) hlen) hj hb2
  | cons b rest ih =>
    intro k best min hdrop hnone hsome
    have hk : L.get? k = some b := by
      have h0 : (L.drop k).get? 0 = some b := by rw [hdrop]; rfl
      rw [List.get?_drop] at h0
      simpa using h0
    have hdrop' : L.drop (k + 1) = rest := by
      have hdd : List.drop 1 (List.drop k L) = List.drop (k + 1) L := by
        rw [List.drop_drop]
      rw [← hdd, hdrop]
      rfl
    cases hb : b.Alive with
    | false =>
      have hstep : leastConnLoop k (b :: rest) best min
          = leastConnLoop (k + 1) rest best min := by
        rw [leastConnLoop]
        simp [Backend.IsAlive, hb]
      rw [hstep]
      refine ih (k + 1) best min hdrop' ?_ ?_
      · intro h j hj
        rcases Nat.lt_succ_iff_lt_or_eq.mp hj with hlt | rfl
        · exact hnone h j hlt
        · rw [aliveAt_get? L j b hk]
          exact hb
      · intro i b0 h
        obtain ⟨hik, hget, halive, hmin, hle, hlt⟩ := hsome i b0 h
        refine ⟨by omega, hget, halive, hmin, ?_, hlt⟩
        intro j b2 hj hj2 hb2
        rcases Nat.lt_succ_iff_lt_or_eq.mp hj with hjlt | rfl
        · exact hle j b2 hjlt hj2 hb2
        · rw [hk] at hj2
          injection hj2 with he
          rw [← he, hb] at hb2
          exact absurd hb2 (by simp)
    | true =>
      cases best with
      | none =>
        have hstep : leastConnLoop k (b :: rest) none min
            = leastConnLoop (k + 1) rest (some (k, b)) b.GetConnCount := by
          rw [leastConnLoop]
          simp [Backend.IsAlive, hb]
        rw [hstep]
        refine ih (k + 1) (some (k, b)) b.GetConnCount hdrop'
          (fun h => by cases h) ?_
        intro i b1 h
        injection h with h
        injection h with h1 h2
        subst h1
        subst h2
        refine ⟨Nat.lt_succ_self k, hk, hb, rfl, ?_, ?_⟩
        · intro j b2 hj hj2 hb2
          rcases Nat.lt_succ_iff_lt_or_eq.mp hj with hjlt | rfl
          · have hdead := hnone rfl j hjlt
            rw [aliveAt_get? L j b2 hj2, hb2] at hdead
            exact absurd hdead (by simp)
          · rw [hk] at hj2
            injection hj2 with he
            rw [he]
        · intro j b2 hj hj2 hb2
          have hdead := hnone rfl j hj
          rw [aliveAt_get? L j b2 hj2, hb2] at hdead
          exact absurd hdead (by simp)
      | some p =>
        obtain ⟨i0, b0⟩ := p
        obtain ⟨hi0k, hget0, halive0, hmin0, hle0, hlt0⟩ := hsome i0 b0 rfl
        by_cases hcmp : b.GetConnCount < min
        · have hstep : leastConnLoop k (b :: rest) (some (i0, b0)) min
              = leastConnLoop (k + 1) rest (some (k, b)) b.GetConnCount := by
            rw [leastConnLoop]
            simp [Backend.IsAlive, hb, hcmp]
          rw [hstep]
          refine ih (k + 1) (some (k, b)) b.GetConnCount hdrop'
            (fun h => by cases h) ?_
          intro i b1 h
          injection h with h
          injection h with h1 h2
          subst h1
          subst h2
          have hlt0' : b.ConnCount < b0.ConnCount := by
            have : b.GetConnCount < b0.ConnCount := hmin0 ▸ hcmp
            exact this
          refine ⟨Nat.lt_succ_self k, hk, hb, rfl, ?_, ?_⟩
          · intro j b2 hj hj2 hb2
            rcases Nat.lt_succ_iff_lt_or_eq.mp hj with hjlt | rfl
            · have h2 := hle0 j b2 hjlt hj2 hb2
              omega
            · rw [hk] at hj2
              injection hj2 with he
              rw [he]
          · intro j b2 hj hj2 hb2
            have h2 := hle0 j b2 (by omega) hj2 hb2
            omega
        · have hstep : leastConnLoop k (b :: rest) (some (i0, b0)) min
              = leastConnLoop (k + 1) rest (some (i0, b0)) min := by
            rw [leastConnLoop]
            simp [Backend.IsAlive, hb, hcmp]
          rw [hstep]
          refine ih (k + 1) (some (i0, b0)) min hdrop'
            (fun h => by cases h) ?_
          intro i b1 h
          injection h with h
          injection h with h1 h2
          subst h1
          subst h2
          have hcmp' : b0.ConnCount ≤ b.ConnCount := by
            have : min ≤ b.GetConnCount := Nat.le_of_not_lt hcmp
            rw [hmin0] at this
            exact this
          refine ⟨by omega, hget0, halive0, hmin0, ?_, hlt0⟩
          intro j b2 hj hj2 hb2
          rcases Nat.lt_succ_iff_lt_or_eq.mp hj with hjlt | rfl
          · exact hle0 j b2 hjlt hj2 hb2
          · rw [hk] at hj2
            injection hj2 with he
            rw [← he]
            exact hcmp'

/-- Claim C5: for every pool with at least one alive backend,
`GetLeastConnPeer` returns the alive backend with the numerically smallest
connection count, and when several alive backends tie on the smallest count it
returns the one appearing first in insertion order (every alive backend at a
strictly smaller index has a strictly larger count); when no backend is alive
it returns `nil`. -/
theorem getLeastConnPeer_min_first (s : ServerPool) :
    (s.Backends.any (·.Alive) = false → s.GetLeastConnPeer = none) ∧
    (s.Backends.any (·.Alive) = true →
      ∃ i b, s.GetLeastConnPeer = some (i, b) ∧
        s.Backends.get? i = some b ∧ b.Alive = true ∧
        (∀ j b2, s.Backends.get? j = some b2 → b2.Alive = true →
          b.ConnCount ≤ b2.ConnCount) ∧
        (∀ j b2, j < i → s.Backends.get? j = some b2 → b2.Alive = true →
          b.ConnCount < b2.ConnCount)) := by
  have hGL : s.GetLeastConnPeer
      = leastConnLoop 0 s.Backends none (UINT64_MOD - 1) := rfl
  have hinv := leastConnLoop_invariant s.Backends s.Backends 0 none
    (UINT64_MOD - 1) (by rw [List.drop_zero])
    (fun _ j hj => absurd hj (by omega))
    (fun i b h => by cases h)
  constructor
  · intro hany
    cases hres : s.GetLeastConnPeer with
    | none => rfl
    | some p =>
      obtain ⟨i, b⟩ := p
      rw [hGL] at hres
      obtain ⟨hget, halive, _, _⟩ := hinv.2 i b hres
      have hdead := aliveAt_false_of_any_false s.Backends hany i
      rw [aliveAt_get? s.Backends i b hget, halive] at hdead
      exact absurd hdead (by simp)
  · intro hany
    cases hres : s.GetLeastConnPeer with
    | some p =>
      obtain ⟨i, b⟩ := p
      rw [hGL] at hres
      obtain ⟨hget, halive, hle, hlt⟩ := hinv.2 i b hres
      exact ⟨i, b, rfl, hget, halive, hle, hlt⟩
    | none =>
      rw [hGL] at hres
      obtain ⟨a, _, haat⟩ := exists_aliveAt_of_any_true s.Backends hany
      obtain ⟨b2, hget2, halive2⟩ := exists_get?_of_aliveAt s.Backends a haat
      have hdead := hinv.1 hres a b2 hget2
      rw [halive2] at hdead
      exact absurd hdead (by simp)

/-- Witness for C5 at the concrete pool from the repository's own test
`TestServerPool_GetLeastConnPeer` (counts 10, 5, 20, all alive). -/
theorem getLeastConnPeer_min_first_witness :
    ∃ i b,
      ServerPool.GetLeastConnPeer ⟨[⟨"1", true, 0, 0, 10⟩, ⟨"2", true, 0, 0, 5⟩,
          ⟨"3", true, 0, 0, 20⟩], 0⟩ = some (i, b) ∧
      ([⟨"1", true, 0, 0, 10⟩, ⟨"2", true, 0, 0, 5⟩,
          ⟨"3", true, 0, 0, 20⟩] : List Backend).get? i = some b ∧
      b.Alive = true ∧
      (∀ j b2, ([⟨"1", true, 0, 0, 10⟩, ⟨"2", true, 0, 0, 5⟩,
          ⟨"3", true, 0, 0, 20⟩] : List Backend).get? j = some b2 →
        b2.Alive = true → b.ConnCount ≤ b2.ConnCount) ∧
      (∀ j b2, j < i → ([⟨"1", true, 0, 0, 10⟩, ⟨"2", true, 0, 0, 5⟩,
          ⟨"3", true, 0, 0, 20⟩] : List Backend).get? j = some b2 →
        b2.Alive = true → b.ConnCount < b2.ConnCount) :=
  (getLeastConnPeer_min_first ⟨[⟨"1", true, 0, 0, 10⟩, ⟨"2", true, 0, 0, 5⟩,
      ⟨"3", true, 0, 0, 20⟩], 0⟩).2 (by decide)


/-! ### Claim C2 -/

/-- Claim C2 counterexample: a world where the TCP dial succeeds but an HTTP
GET to the backend's base address returns status 500 — outside [200,400).
`isBackendAlive` reports the backend alive while the claim's probe semantics
report it dead, so the claim is false at this input. -/
theorem isBackendAlive_status_counterexample :
    isBackendAlive ⟨none, some 500⟩ = true ∧
    probeAliveClaim ⟨none, some 500⟩ = false := by
  decide

/-- Claim C2 (amended): `isBackendAlive` reports a backend alive iff the TCP
dial to the backend's host completes without error within the 2-second
timeout; it issues no HTTP request, so its verdict is independent of any HTTP
status, and any dial error (including timeout) is reported as dead. -/
theorem isBackendAlive_tcp_dial_only (w : ProbeWorld) :
    (isBackendAlive w = true ↔ w.dialError = none) ∧
    (∀ g, isBackendAlive ⟨w.dialError, g⟩ = isBackendAlive w) := by
  obtain ⟨d, g0⟩ := w
  cases d <;> simp [isBackendAlive]

/-! ### Claim C3 -/

/-- Claim C3: the favicon path short-circuits with a 404 and a non-empty
all-dead pool yields a 503, but on the zero-length pool the claim fails: the
`% uint64(0)` inside `NextIndex` raises a Go runtime panic (integer divide by
zero), so `lbHandler` aborts without writing any response and the request is
silently dropped — contradicting the claim and the repository's own test
`TestLbHandler`, sub-test `"No Backends Available"`, which expects a 503. -/
theorem lbHandler_empty_pool_panics :
    (lbHandler "/favicon.ico" ⟨[], 0⟩).1 = .notFound404 ∧
    (lbHandler "/" ⟨[⟨"a", false, 0, 0, 0⟩], 5⟩).1 = .unavailable503 ∧
    (lbHandler "/" ⟨[], 0⟩).1 = .panicked .divideByZero := by
  decide

/-! ### Claim C4 -/

/-- Claim C4 counterexample: a 204 response — a 2xx status — with a decodable
body reporting 5000 bytes leaves the stored memory figure at its previous
value 100: the code accepts only status 200, so the claim's "2xx" success
clause is false at this input. -/
theorem updateBackendStats_status204_counterexample :
    200 ≤ 204 ∧ 204 < 300 ∧
    (updateBackendStats ⟨"a", true, 0, 100, 0⟩
        (.response 204 (some 5000))).MemoryUsage = 100 ∧
    (100 : Nat) ≠ 5000 := by
  decide

/-- Claim C4 (amended): after `updateBackendStats` whose GET suffers a
transport error, returns a status other than exactly 200 (`http.StatusOK`), or
yields an undecodable JSON body, the backend's stored memory figure equals its
value before the call (the whole record is unchanged); when the GET returns
status 200 with a decodable body carrying the memory-usage field, the stored
figure equals the reported value. -/
theorem updateBackendStats_only200 (b : Backend) :
    (∀ msg, updateBackendStats b (.transportError msg) = b) ∧
    (∀ st dec, st ≠ 200 → updateBackendStats b (.response st dec) = b) ∧
    (∀ st, updateBackendStats b (.response st none) = b) ∧
    (∀ mem, (updateBackendStats b (.response 200 (some mem))).MemoryUsage = mem) := by
  refine ⟨fun msg => rfl, ?_, ?_, fun mem => rfl⟩
  · intro st dec hst
    simp [updateBackendStats, hst]
  · intro st
    by_cases h : st = 200 <;> simp [updateBackendStats, h]

/-- Witness for C4's amended theorem at concrete fetch outcomes. -/
theorem updateBackendStats_only200_witness :
    (updateBackendStats ⟨"a", true, 0, 100, 0⟩ (.transportError "refused")
        = ⟨"a", true, 0, 100, 0⟩) ∧
    (updateBackendStats ⟨"a", true, 0, 100, 0⟩ (.response 500 (some 7))
        = ⟨"a", true, 0, 100, 0⟩) ∧
    (updateBackendStats ⟨"a", true, 0, 100, 0⟩ (.response 200 none)
        = ⟨"a", true, 0, 100, 0⟩) ∧
    (updateBackendStats ⟨"a", true, 0, 100, 0⟩
        (.response 200 (some 5000))).MemoryUsage = 5000 :=
  ⟨(updateBackendStats_only200 ⟨"a", true, 0, 100, 0⟩).1 "refused",
   (updateBackendStats_only200 ⟨"a", true, 0, 100, 0⟩).2.1 500 (some 7) (by decide),
   (updateBackendStats_only200 ⟨"a", true, 0, 100, 0⟩).2.2.1 200,
   (updateBackendStats_only200 ⟨"a", true, 0, 100, 0⟩).2.2.2 5000⟩

/-! ### Claim C6 -/

/-- Claim C6: `SetAlive(true)` on a backend whose stored alive flag is false
resets `StartTime` to the current time; `SetAlive(false)` leaves `StartTime`
unchanged; `SetAlive(true)` on an already-alive backend leaves `StartTime`
unchanged — only a false→true edge resets the uptime origin (and the alive
flag is always stored). -/
theorem setAlive_startTime_edges (b : Backend) (now : Nat) :
    (b.Alive = false → (b.SetAlive now true).StartTime = now) ∧
    ((b.SetAlive now false).StartTime = b.StartTime) ∧
    (b.Alive = true → (b.SetAlive now true).StartTime = b.StartTime) ∧
    (∀ a, (b.SetAlive now a).Alive = a) := by
  refine ⟨fun h => ?_, ?_, fun h => ?_, fun a => ?_⟩
  · simp [Backend.SetAlive, h]
  · simp [Backend.SetAlive]
  · simp [Backend.SetAlive, h]
  · cases hc : (a && !b.Alive) <;> simp [Backend.SetAlive, hc]

/-- Witness for C6 at concrete backends (one dead, one alive). -/
theorem setAlive_startTime_edges_witness :
    (Backend.SetAlive ⟨"x", false, 3, 0, 0⟩ 42 true).StartTime = 42 ∧
    (Backend.SetAlive ⟨"x", true, 3, 0, 0⟩ 42 false).StartTime = 3 ∧
    (Backend.SetAlive ⟨"x", true, 3, 0, 0⟩ 42 true).StartTime = 3 :=
  ⟨(setAlive_startTime_edges ⟨"x", false, 3, 0, 0⟩ 42).1 rfl,
   (setAlive_startTime_edges ⟨"x", true, 3, 0, 0⟩ 42).2.1,
   (setAlive_startTime_edges ⟨"x", true, 3, 0, 0⟩ 42).2.2.1 rfl⟩

/-! ### Claim C10 -/

/-- Claim C10: the connection counter never underflows below zero — `decConn`
applied at zero is a no-op leaving the counter at zero; applied at a positive
counter it decreases the counter by exactly one; and after every sequence of
`incConn`/`decConn` operations the counter is still bounded by the start value
plus the number of increments performed (the bound an unsigned underflow wrap
to `2 ^ 64 − 1` would break), hence never negative. -/
theorem connCount_clamp_no_underflow (b : Backend) (ops : List ConnOp) :
    (b.ConnCount = 0 → b.DecConn = b) ∧
    (0 < b.ConnCount → b.DecConn.ConnCount = b.ConnCount - 1) ∧
    (applyConnOps b ops).ConnCount ≤ b.ConnCount + countIncs ops := by
  refine ⟨fun h => ?_, fun h => ?_, ?_⟩
  · unfold Backend.DecConn
    rw [if_pos h]
  · unfold Backend.DecConn
    rw [if_neg (by omega)]
  · induction ops generalizing b with
    | nil => simp [applyConnOps, countIncs]
    | cons op rest ih =>
      cases op with
      | inc =>
        have h1 := ih b.IncConn
        have h2 : b.IncConn.ConnCount ≤ b.ConnCount + 1 := Nat.mod_le _ _
        show (applyConnOps b.IncConn rest).ConnCount ≤ b.ConnCount + countIncs (.inc :: rest)
        unfold countIncs
        omega
      | dec =>
        have h1 := ih b.DecConn
        have h2 : b.DecConn.ConnCount ≤ b.ConnCount := by
          unfold Backend.DecConn
          by_cases h : b.ConnCount = 0 <;> simp [h]
        show (applyConnOps b.DecConn rest).ConnCount ≤ b.ConnCount + countIncs (.dec :: rest)
        unfold countIncs
        omega

/-- Witness for C10: decrement at zero, decrement at five, and the sequence
inc, inc, dec, dec, dec from zero. -/
theorem connCount_clamp_no_underflow_witness :
    (Backend.DecConn ⟨"x", true, 0, 0, 0⟩ = ⟨"x", true, 0, 0, 0⟩) ∧
    ((Backend.DecConn ⟨"x", true, 0, 0, 5⟩).ConnCount = 5 - 1) ∧
    (applyConnOps ⟨"x", true, 0, 0, 0⟩ [.inc, .inc, .dec, .dec, .dec]).ConnCount
      ≤ 0 + countIncs [.inc, .inc, .dec, .dec, .dec] :=
  ⟨(connCount_clamp_no_underflow ⟨"x", true, 0, 0, 0⟩ []).1 rfl,
   (connCount_clamp_no_underflow ⟨"x", true, 0, 0, 5⟩ []).2.1 (by decide),
   (connCount_clamp_no_underflow ⟨"x", true, 0, 0, 0⟩
      [.inc, .inc, .dec, .dec, .dec]).2.2⟩

/-! ### Claim C9 -/

/-- Claim C9 counterexample: two backends identical except for their
connection counts (0 and 7) produce identical `GetStats` snapshots — the
`BackendStats` record carries url, alive, uptime and memory usage but no
connection count, so no snapshot field can equal the backend's current
connection count, falsifying the claim at this input. -/
theorem getStats_no_connCount_counterexample :
    ServerPool.GetStats ⟨[⟨"u", true, 0, 500, 0⟩], 0⟩ 10
      = ServerPool.GetStats ⟨[⟨"u", true, 0, 500, 7⟩], 0⟩ 10 ∧
    Backend.ConnCount ⟨"u", true, 0, 500, 0⟩
      ≠ Backend.ConnCount ⟨"u", true, 0, 500, 7⟩ :=
  ⟨rfl, by decide⟩

/-- Claim C9 (amended): `GetStats` returns exactly one snapshot per backend,
in pool order, and each snapshot carries that backend's address (string),
aliveness (bool), human-readable uptime and human-readable memory usage — but
no connection count (the `BackendStats` record has no such field). -/
theorem getStats_snapshot_per_backend (s : ServerPool) (now : Nat) :
    (s.GetStats now).length = s.Backends.length ∧
    (∀ i b, s.Backends.get? i = some b →
      (s.GetStats now).get? i = some
        { URL := b.URL, Alive := b.IsAlive, UpTime := b.GetUpTime now,
          MemoryUsage := b.GetMemoryUsageString }) := by
  constructor
  · exact List.length_map s.Backends _
  · intro i b h
    unfold ServerPool.GetStats
    rw [List.get?_map, h]
    rfl

/-- Witness for C9's amended theorem at a one-backend pool. -/
theorem getStats_snapshot_per_backend_witness :
    (ServerPool.GetStats ⟨[⟨"u", true, 5, 500, 3⟩], 0⟩ 15).length
        = (ServerPool.Backends ⟨[⟨"u", true, 5, 500, 3⟩], 0⟩).length ∧
    (ServerPool.GetStats ⟨[⟨"u", true, 5, 500, 3⟩], 0⟩ 15).get? 0 = some
      { URL := Backend.URL ⟨"u", true, 5, 500, 3⟩
        Alive := Backend.IsAlive ⟨"u", true, 5, 500, 3⟩
        UpTime := Backend.GetUpTime ⟨"u", true, 5, 500, 3⟩ 15
        MemoryUsage := Backend.GetMemoryUsageString ⟨"u", true, 5, 500, 3⟩ } :=
  ⟨(getStats_snapshot_per_backend ⟨[⟨"u", true, 5, 500, 3⟩], 0⟩ 15).1,
   (getStats_snapshot_per_backend ⟨[⟨"u", true, 5, 500, 3⟩], 0⟩ 15).2 0
     ⟨"u", true, 5, 500, 3⟩ rfl⟩

end LoadBalancer
